import Mathlib

/-!
Verification development for the receipt-uploader file intake widget.

The repository is a browser client (src/src/app/page.tsx, plus two earlier
build variants of the same page kept as src/unnamed/part_000 and
src/unnamed/part_001).  The logic under verification is pure control flow
around calls into external libraries (heic2any, pdf.js, canvas, FileReader,
fetch).  Those externals are modelled as inputs: an Env record supplies the
outcome each external call would produce, and the embedded functions below
mirror, branch for branch, what the source does with those outcomes.

Naming follows the source: convertHeicToJpeg, convertPdfToJpeg,
createImagePreview, processAndUploadFile, FileStatus, UploadedFile, come
from src/src/app/page.tsx; definitions whose name carries the suffix
Variant embed the differing code of src/unnamed/part_000 / part_001.
-/

namespace ReceiptUploader

/-- Decidable equality for Except, needed for concrete evaluation of
outcome records. -/
instance {ε α : Type} [DecidableEq ε] [DecidableEq α] : DecidableEq (Except ε α) :=
  fun x y =>
    match x, y with
    | .ok a, .ok b =>
      if h : a = b then isTrue (by rw [h]) else isFalse (by simp [h])
    | .error a, .error b =>
      if h : a = b then isTrue (by rw [h]) else isFalse (by simp [h])
    | .ok _, .error _ => isFalse (by simp)
    | .error _, .ok _ => isFalse (by simp)

/-- Byte sequence of a browser Blob, abstracted as a list of byte values. -/
abbrev Blob := List Nat

/-- JS String.prototype.toLowerCase, on the ASCII alphabet the filenames of
this flow use: every character is lowered. -/
def lowerStr (s : String) : String := ⟨s.data.map Char.toLower⟩

/-- JS String.prototype.endsWith. -/
def strEndsWith (s p : String) : Bool := p.data.isSuffixOf s.data

/-- JS String.prototype.startsWith. -/
def strStartsWith (s p : String) : Bool := p.data.isPrefixOf s.data

/-- Drop the final n characters of a string. -/
def dropRightStr (s : String) (n : Nat) : String := ⟨s.data.take (s.data.length - n)⟩

/-- Array.prototype.join with a comma separator. -/
def joinWithComma : List String → String
  | [] => ""
  | [x] => x
  | x :: xs => x ++ "," ++ joinWithComma xs

/-- A value thrown in JS: either an Error object carrying a message, or a
non-Error value (for example the Event passed to img.onerror), which the
final catch of processAndUploadFile turns into the fixed fallback text. -/
inductive Err
  | mk (message : String)
  | nonError
  deriving DecidableEq, Repr

/-- Colors that appear in the canvas code of convertPdfToJpeg. -/
inductive Color
  | white
  | black
  | transparent
  deriving DecidableEq, Repr

/-- One drawing operation performed on a 2d canvas context, as issued by the
conversion code: the explicit white fillRect, the pdf.js page render (which
records the page number, the viewport scale and the background option passed
to it), and the drawImage call of the convertible-image path. -/
inductive CanvasOp
  | fillRect (c : Color) (x y w h : ℚ)
  | renderPdfPage (pageNumber : Nat) (scale : ℚ) (background : Color)
  | drawImage (w h : ℚ)
  deriving DecidableEq, Repr

/-- A canvas element: its pixel dimensions and the operations drawn on it. -/
structure Canvas where
  width : ℚ
  height : ℚ
  ops : List CanvasOp
  deriving DecidableEq, Repr

/-- Content of a JS File object.  bytes is a plain blob; str arises when a
non-BlobPart value (an array, or undefined) is handed to the File
constructor and is string-coerced per the Web IDL rules; jpegOfCanvas is the
blob produced by canvas.toBlob with the given JPEG quality (its encoded byte
size is not modelled). -/
inductive FileContent
  | bytes (b : Blob)
  | str (s : String)
  | jpegOfCanvas (c : Canvas) (quality : ℚ)
  deriving DecidableEq, Repr

/-- Byte size reported by a File; the size of a canvas-encoded JPEG is not
modelled and is reported as 0 (no claim depends on output sizes). -/
def contentSize : FileContent → Nat
  | .bytes b => b.length
  | .str s => s.length
  | .jpegOfCanvas _ _ => 0

/-- A JS File: name, declared MIME type, byte size and content. -/
structure File where
  name : String
  type : String
  size : Nat
  content : FileContent
  deriving DecidableEq, Repr

/-- isImageFile from page.tsx: the declared MIME type starts with image/. -/
def isImageFile (file : File) : Bool :=
  strStartsWith file.type "image/"

/-- isPdfFile from page.tsx: the declared MIME type is exactly
application/pdf. -/
def isPdfFile (file : File) : Bool :=
  file.type == "application/pdf"

/-- Embedding of the JS string replace with the case-insensitive pattern
matching a final .heic or .heif, as used in convertHeicToJpeg. -/
def replaceHeicExt (s : String) : String :=
  if strEndsWith (lowerStr s) ".heic" || strEndsWith (lowerStr s) ".heif" then
    dropRightStr s 5 ++ ".jpg"
  else s

/-- Embedding of the JS string replace with the case-insensitive pattern
matching a final .pdf, as used in convertPdfToJpeg. -/
def replacePdfExt (s : String) : String :=
  if strEndsWith (lowerStr s) ".pdf" then dropRightStr s 4 ++ ".jpg" else s

/-- Embedding of the JS string replace whose pattern matches a final dot
followed by one or more non-dot characters, as used in the convertible-image
path: the last extension is rewritten to .jpg; a name without such an
extension is left unchanged. -/
def replaceLastExt (s : String) : String :=
  let rev := s.data.reverse
  let ext := rev.takeWhile (fun c => c ≠ '.')
  let rest := rev.drop ext.length
  match rest with
  | [] => s
  | _ :: before =>
    if ext.isEmpty then s
    else ⟨before.reverse ++ ".jpg".data⟩

/-- Coercion of the heic2any result into File content when it is passed to
the File constructor directly, as page.tsx does: a single Blob is used as
bytes; a Blob array is not a BlobPart, so Web IDL string-converts it
(Array.prototype.toString joins the elements, each stringifying as
[object Blob]). -/
def blobPartToContent : Blob ⊕ List Blob → FileContent
  | .inl b => .bytes b
  | .inr bs => .str (joinWithComma (bs.map fun _ => "[object Blob]"))

/-- convertHeicToJpeg from src/src/app/page.tsx lines 31-47: the heic2any
outcome (a Blob or a Blob array, or a rejection) is supplied as the first
argument; the result Blob-or-array is handed to the File constructor as is,
the name gets its .heic/.heif suffix rewritten to .jpg, and any decoder
failure is caught and rethrown as the fixed generic message. -/
def convertHeicToJpeg (decoded : Except Err (Blob ⊕ List Blob)) (file : File) :
    Except Err File :=
  match decoded with
  | .error _ => .error (.mk "Failed to convert HEIC image")
  | .ok convertedBlob =>
    .ok { name := replaceHeicExt file.name
          type := "image/jpeg"
          size := contentSize (blobPartToContent convertedBlob)
          content := blobPartToContent convertedBlob }

/-- convertHeicToJpeg from src/unnamed/part_000 lines 31-50 and
src/unnamed/part_001 lines 32-51: identical to the page.tsx version except
that an array result is first reduced via Array.isArray ? convertedBlob[0] :
convertedBlob; indexing an empty array yields undefined, which the File
constructor string-converts. -/
def convertHeicToJpegVariant (decoded : Except Err (Blob ⊕ List Blob)) (file : File) :
    Except Err File :=
  match decoded with
  | .error _ => .error (.mk "Failed to convert HEIC image")
  | .ok convertedBlob =>
    let blobArray : FileContent :=
      match convertedBlob with
      | .inl b => .bytes b
      | .inr bs =>
        match bs.head? with
        | some b => .bytes b
        | none => .str "undefined"
    .ok { name := replaceHeicExt file.name
          type := "image/jpeg"
          size := contentSize blobArray
          content := blobArray }

/-- A pdf.js page, reduced to the intrinsic dimensions that determine the
viewport. -/
structure PdfPage where
  width : ℚ
  height : ℚ
  deriving DecidableEq, Repr

/-- A pdf.js document proxy: its ordered list of pages (numPages is the
length). -/
structure PdfDoc where
  pages : List PdfPage
  deriving DecidableEq, Repr

/-- A viewport as returned by page.getViewport. -/
structure Viewport where
  width : ℚ
  height : ℚ
  deriving DecidableEq, Repr

/-- page.getViewport with a scale factor: dimensions scale linearly. -/
def PdfPage.getViewport (p : PdfPage) (scale : ℚ) : Viewport :=
  { width := p.width * scale, height := p.height * scale }

/-- A fetched page together with its 1-based page number. -/
structure PdfPageRef where
  num : Nat
  page : PdfPage
  deriving DecidableEq, Repr

/-- pdf.getPage n: returns page n (1-based) or fails when the document has
fewer pages; the failure value models the rejection pdf.js produces. -/
def getPage (doc : PdfDoc) (n : Nat) : Except Err PdfPageRef :=
  match doc.pages.get? (n - 1) with
  | some p => .ok { num := n, page := p }
  | none => .error (.mk "Invalid page request")

/-- Outcomes of the external pdf.js calls made during one conversion:
the getDocument load, the page.render promise, and whether canvas.toBlob
delivers a non-null blob. -/
structure PdfEnv where
  load : Except Err PdfDoc
  render : Except Err Unit
  encodeOk : Bool
  deriving DecidableEq, Repr

/-- The try-block body of convertPdfToJpeg in src/src/app/page.tsx lines
62-107: load the document, get page 1, build a viewport at scale 2.0, size
a canvas to it, fill the canvas with a white rectangle, render the page
with background white, then encode the canvas as image/jpeg at quality
0.95, rewriting the name suffix .pdf to .jpg. -/
def convertPdfToJpegBody (env : PdfEnv) (file : File) : Except Err File :=
  match env.load with
  | .error e => .error e
  | .ok pdf =>
    match getPage pdf 1 with
    | .error e => .error e
    | .ok pageRef =>
      let viewport := pageRef.page.getViewport 2
      let canvas1 : Canvas :=
        { width := viewport.width, height := viewport.height
          ops := [CanvasOp.fillRect Color.white 0 0 viewport.width viewport.height] }
      match env.render with
      | .error e => .error e
      | .ok _ =>
        let canvas2 : Canvas :=
          { canvas1 with ops := canvas1.ops ++ [CanvasOp.renderPdfPage pageRef.num 2 Color.white] }
        if env.encodeOk then
          .ok { name := replacePdfExt file.name
                type := "image/jpeg"
                size := contentSize (FileContent.jpegOfCanvas canvas2 (95 / 100))
                content := FileContent.jpegOfCanvas canvas2 (95 / 100) }
        else
          .error (.mk "Failed to convert PDF to image")

/-- convertPdfToJpeg from src/src/app/page.tsx lines 57-112: the body above
wrapped in the catch that replaces every stage failure with the fixed
generic message. -/
def convertPdfToJpeg (env : PdfEnv) (file : File) : Except Err File :=
  match convertPdfToJpegBody env file with
  | .ok f => .ok f
  | .error _ => .error (.mk "Failed to convert PDF")

/-- The try-block body of convertPdfToJpeg in src/unnamed/part_000 lines
78-133: same pipeline, but the canvas is never explicitly filled (only the
render call receives background white) and a null toBlob result rejects
with a different message. -/
def convertPdfToJpegVariantBody (env : PdfEnv) (file : File) : Except Err File :=
  match env.load with
  | .error e => .error e
  | .ok pdf =>
    match getPage pdf 1 with
    | .error e => .error e
    | .ok pageRef =>
      let viewport := pageRef.page.getViewport 2
      let canvas0 : Canvas :=
        { width := viewport.width, height := viewport.height, ops := [] }
      match env.render with
      | .error e => .error e
      | .ok _ =>
        let canvas1 : Canvas :=
          { canvas0 with ops := canvas0.ops ++ [CanvasOp.renderPdfPage pageRef.num 2 Color.white] }
        if env.encodeOk then
          .ok { name := replacePdfExt file.name
                type := "image/jpeg"
                size := contentSize (FileContent.jpegOfCanvas canvas1 (95 / 100))
                content := FileContent.jpegOfCanvas canvas1 (95 / 100) }
        else
          .error (.mk "Failed to convert canvas to blob")

/-- convertPdfToJpeg from src/unnamed/part_000 lines 71-138: its catch block
logs and rethrows the caught error verbatim, so the function equals its try
body. -/
def convertPdfToJpegVariant (env : PdfEnv) (file : File) : Except Err File :=
  convertPdfToJpegVariantBody env file

/-- The raster image decoded for the convertible-image path (the img element
after onload), reduced to its natural dimensions. -/
structure Img where
  width : ℚ
  height : ℚ
  deriving DecidableEq, Repr

/-- The inline convertible-image block of processAndUploadFile in
src/src/app/page.tsx lines 181-203: await the img load (a failed load
rejects with the onerror Event and propagates, uncaught, to the outer
catch), draw the image on a canvas of its natural size, and encode as
image/jpeg at quality 0.8 (this toBlob callback resolves unconditionally);
the final extension of the name is rewritten to .jpg. -/
def reencodeImage (imgResult : Except Err Img) (file : File) : Except Err File :=
  match imgResult with
  | .error e => .error e
  | .ok img =>
    let canvas : Canvas :=
      { width := img.width, height := img.height
        ops := [CanvasOp.drawImage img.width img.height] }
    .ok { name := replaceLastExt file.name
          type := "image/jpeg"
          size := contentSize (FileContent.jpegOfCanvas canvas (8 / 10))
          content := FileContent.jpegOfCanvas canvas (8 / 10) }

/-- The outcome of a settled JS promise: resolved with a value or rejected
with a thrown value. -/
inductive PromiseResult (α : Type)
  | resolved (a : α)
  | rejected (e : Err)
  deriving DecidableEq, Repr

/-- The string a successful FileReader.readAsDataURL produces for a file
(payload abstracted; only the scheme prefix matters to the claims). -/
def dataUrlOf (file : File) : String :=
  "data:" ++ file.type ++ ";base64,"

/-- createImagePreview from src/src/app/page.tsx lines 22-28 (identical in
part_000 and part_001): the promise installs only an onloadend handler that
resolves with reader.result, so it resolves on success and failure alike;
readOk says whether the underlying read succeeded, and on failure
reader.result is null, modelled as none. -/
def createImagePreview (readOk : Bool) (file : File) : PromiseResult (Option String) :=
  .resolved (if readOk then some (dataUrlOf file) else none)

/-- Whether a resolved preview value is a usable data URI: null is not, and
a string must carry the data: scheme. -/
def isValidDataUri : Option String → Bool
  | some s => strStartsWith s "data:"
  | none => false

/-- FileStatus from page.tsx. -/
inductive FileStatus
  | idle
  | processing
  | uploading
  | success
  | error
  deriving DecidableEq, Repr

/-- UploadedFile from page.tsx: one entry of the upload history. -/
structure UploadedFile where
  id : String
  previewUrl : Option String
  fileName : String
  timestamp : Nat
  deriving DecidableEq, Repr

/-- The component state touched by processAndUploadFile: the four useState
cells fileStatus, errorMessage, previewFile, uploadHistory. -/
structure AppState where
  fileStatus : FileStatus
  errorMessage : String
  previewFile : Option (File × Option String)
  uploadHistory : List UploadedFile
  deriving DecidableEq, Repr

/-- The HTTP response of the upload POST. -/
structure Response where
  ok : Bool
  status : Nat
  statusText : String
  deriving DecidableEq, Repr

/-- Outcomes of every external call one intake attempt can make, supplied as
an oracle: the heic2any result, the pdf.js outcomes, the img load of the
convertible path, whether the preview FileReader read succeeds, the
configured webhook URL, the fetch outcome, the value Math.random-based id
generation yields for this attempt, and the current time. -/
structure Env where
  heic : Except Err (Blob ⊕ List Blob)
  pdf : PdfEnv
  img : Except Err Img
  readOk : Bool
  webhookUrl : Option String
  fetchResult : Except Err Response
  idSource : String
  now : Nat
  deriving DecidableEq, Repr

/-- The observable stages an intake attempt can execute, recorded in
execution order: the three conversion paths, the preview read, and the
network POST (carrying the URL it was issued against, none when the env
variable was not configured). -/
inductive Stage
  | heicDecode
  | pdfConvert
  | rasterReencode
  | previewRead
  | fetchPost (url : Option String)
  deriving DecidableEq, Repr

/-- Result of one intake attempt: the final component state, the ordered
list of statuses assigned during the attempt (including the deferred
idle transition the success timeout performs), and the stages executed. -/
structure RunResult where
  state : AppState
  trace : List FileStatus
  stages : List Stage
  deriving DecidableEq, Repr

/-- The classification-and-conversion block of processAndUploadFile in
src/src/app/page.tsx lines 169-206, with the stages it executes: lowercased
filename suffix .heic/.heif selects HEIC conversion; else exact MIME
application/pdf selects PDF conversion; else an image/ MIME passes
image/jpeg and image/png through unchanged and re-encodes every other image
type; anything else throws the unsupported-type error without running any
conversion. -/
def processFileStep (env : Env) (file : File) : Except Err File × List Stage :=
  if strEndsWith (lowerStr file.name) ".heic" || strEndsWith (lowerStr file.name) ".heif" then
    (convertHeicToJpeg env.heic file, [Stage.heicDecode])
  else if isPdfFile file then
    (convertPdfToJpeg env.pdf file, [Stage.pdfConvert])
  else if isImageFile file then
    if file.type == "image/jpeg" || file.type == "image/png" then
      (.ok file, [])
    else
      (reencodeImage env.img file, [Stage.rasterReencode])
  else
    (.error (.mk "Unsupported file type"), [])

/-- The five-way classification exactly as the claims and section 4.1 of the
spec word it, written from the spec text for comparison against the branch
structure of the source. -/
inductive FileClass
  | heic
  | pdf
  | directImage
  | convertibleImage
  | unsupported
  deriving DecidableEq, Repr

/-- Format Detector as worded by the spec: filename extension .heic/.heif
(case-insensitive) wins first regardless of MIME; else MIME exactly
application/pdf; else a MIME prefixed image/ is direct for exactly
image/jpeg or image/png and convertible otherwise; else unsupported. -/
def detectFromSpec (file : File) : FileClass :=
  if strEndsWith (lowerStr file.name) ".heic" || strEndsWith (lowerStr file.name) ".heif" then
    .heic
  else if file.type == "application/pdf" then
    .pdf
  else if strStartsWith file.type "image/" then
    if file.type == "image/jpeg" || file.type == "image/png" then
      .directImage
    else
      .convertibleImage
  else
    .unsupported

/-- MAX_FILE_SIZE from page.tsx line 164. -/
def MAX_FILE_SIZE : Nat := 10 * 1024 * 1024

/-- The message the final catch of processAndUploadFile displays for a
thrown value. -/
def errMessage : Err → String
  | .mk m => m
  | .nonError => "Unknown error occurred"

/-- The catch block of processAndUploadFile: status becomes error and the
message of the thrown value is retained; statuses and stages recorded so
far are kept. -/
def mkError (st : AppState) (trace : List FileStatus) (stages : List Stage) (e : Err) :
    RunResult :=
  { state := { st with fileStatus := .error, errorMessage := errMessage e }
    trace := trace ++ [FileStatus.error]
    stages := stages }

/-- processAndUploadFile from src/src/app/page.tsx lines 157-246: set
processing and clear message and preview; reject files over MAX_FILE_SIZE;
classify and convert; await the preview promise (its rejection would reach
the outer catch, but createImagePreview never rejects) and publish the
preview; set uploading and POST the form to the env-configured URL (used
with a non-null assertion, without any configuration check); a network
error or a non-ok response throws; on success prepend one history entry
with the Math.random-derived id and switch to success, and the scheduled
timeout later returns the status to idle and clears the preview. -/
def processAndUploadFile (env : Env) (file : File) (st : AppState) : RunResult :=
  let st0 : AppState := { st with fileStatus := .processing, errorMessage := "", previewFile := none }
  let trace0 : List FileStatus := [FileStatus.processing]
  if file.size > MAX_FILE_SIZE then
    mkError st0 trace0 [] (.mk "File size exceeds 10MB limit")
  else
    match processFileStep env file with
    | (.error e, stages) => mkError st0 trace0 stages e
    | (.ok processedFile, stages) =>
      match createImagePreview env.readOk processedFile with
      | .rejected e => mkError st0 trace0 (stages ++ [Stage.previewRead]) e
      | .resolved previewUrl =>
        let st1 : AppState := { st0 with previewFile := some (processedFile, previewUrl) }
        let st2 : AppState := { st1 with fileStatus := .uploading }
        let trace1 := trace0 ++ [FileStatus.uploading]
        let stages2 := stages ++ [Stage.previewRead, Stage.fetchPost env.webhookUrl]
        match env.fetchResult with
        | .error e => mkError st2 trace1 stages2 e
        | .ok response =>
          if !response.ok then
            mkError st2 trace1 stages2 (.mk "Upload failed")
          else
            let entry : UploadedFile :=
              { id := env.idSource
                previewUrl := previewUrl
                fileName := processedFile.name
                timestamp := env.now }
            let st3 : AppState :=
              { st2 with uploadHistory := entry :: st2.uploadHistory, fileStatus := .success }
            let st4 : AppState := { st3 with fileStatus := .idle, previewFile := none }
            { state := st4
              trace := trace1 ++ [FileStatus.success, FileStatus.idle]
              stages := stages2 }

/-- The classification-and-conversion block of processAndUploadFile in
src/unnamed/part_000 lines 207-220: same first two branches, but every
image/ MIME passes through unchanged (there is no convertible re-encode in
this build), and the unsupported message interpolates the MIME type. -/
def processFileStepVariant (env : Env) (file : File) : Except Err File × List Stage :=
  if strEndsWith (lowerStr file.name) ".heic" || strEndsWith (lowerStr file.name) ".heif" then
    (convertHeicToJpegVariant env.heic file, [Stage.heicDecode])
  else if isPdfFile file then
    (convertPdfToJpegVariant env.pdf file, [Stage.pdfConvert])
  else if isImageFile file then
    (.ok file, [])
  else
    (.error (.mk ("Unsupported file type: " ++ file.type)), [])

/-- processAndUploadFile from src/unnamed/part_000 lines 190-295: no size
guard; classify and convert; publish the preview; set uploading, then
require the configured webhook URL and throw the configuration error before
any fetch when it is absent; a non-ok response throws a message carrying
the status; on success prepend one history entry whose id is the Date.now
string, and the status stays at success (this build schedules no return to
idle). -/
def processAndUploadFileVariant (env : Env) (file : File) (st : AppState) : RunResult :=
  let st0 : AppState := { st with fileStatus := .processing, errorMessage := "", previewFile := none }
  let trace0 : List FileStatus := [FileStatus.processing]
  match processFileStepVariant env file with
  | (.error e, stages) => mkError st0 trace0 stages e
  | (.ok processedFile, stages) =>
    match createImagePreview env.readOk processedFile with
    | .rejected e => mkError st0 trace0 (stages ++ [Stage.previewRead]) e
    | .resolved previewUrl =>
      let st1 : AppState := { st0 with previewFile := some (processedFile, previewUrl) }
      let st2 : AppState := { st1 with fileStatus := .uploading }
      let trace1 := trace0 ++ [FileStatus.uploading]
      let stages1 := stages ++ [Stage.previewRead]
      match env.webhookUrl with
      | none => mkError st2 trace1 stages1 (.mk "Webhook URL not configured")
      | some url =>
        let stages2 := stages1 ++ [Stage.fetchPost (some url)]
        match env.fetchResult with
        | .error e => mkError st2 trace1 stages2 e
        | .ok response =>
          if !response.ok then
            mkError st2 trace1 stages2
              (.mk ("Upload failed with status " ++ toString response.status ++ ": "
                    ++ response.statusText))
          else
            let entry : UploadedFile :=
              { id := toString env.now
                previewUrl := previewUrl
                fileName := processedFile.name
                timestamp := env.now }
            { state := { st2 with uploadHistory := entry :: st2.uploadHistory, fileStatus := .success }
              trace := trace1 ++ [FileStatus.success]
              stages := stages2 }

/-! Concrete fixtures used by witnesses and counterexamples. -/

/-- The initial component state: idle, no message, no preview, empty
history. -/
def st0 : AppState :=
  { fileStatus := .idle, errorMessage := "", previewFile := none, uploadHistory := [] }

/-- A three-page pdf.js environment where every stage succeeds. -/
def pdfEnvOk : PdfEnv :=
  { load := .ok { pages := [{ width := 100, height := 200 },
                            { width := 3, height := 4 },
                            { width := 5, height := 6 }] }
    render := .ok ()
    encodeOk := true }

/-- A pdf.js environment whose getDocument load rejects with a
library-internal error. -/
def pdfEnvLoadFail : PdfEnv :=
  { load := .error (.mk "XRefParseException: invalid xref")
    render := .ok ()
    encodeOk := true }

/-- An environment where every external call succeeds. -/
def envW : Env :=
  { heic := .ok (.inl [9, 9])
    pdf := pdfEnvOk
    img := .ok { width := 10, height := 20 }
    readOk := true
    webhookUrl := some "https://example.com/hook"
    fetchResult := .ok { ok := true, status := 200, statusText := "OK" }
    idSource := "k7f2q"
    now := 100 }

/-- envW with no configured webhook URL. -/
def envNoUrl : Env := { envW with webhookUrl := none }

/-- envW with a failing preview file read. -/
def envReadFail : Env := { envW with readOk := false }

/-- envW with a different timestamp but the same Math.random draw, for the
second attempt of the id-collision counterexample. -/
def envSameId : Env := { envW with now := 200 }

/-- A small direct PNG input. -/
def filePng : File :=
  { name := "photo.png", type := "image/png", size := 4, content := .bytes [1, 2, 3, 4] }

/-- A second small direct PNG input with a different name. -/
def filePng2 : File :=
  { name := "receipt.png", type := "image/png", size := 2, content := .bytes [7, 7] }

/-- An upper-case HEIC input whose declared MIME type even claims PDF: the
extension must win. -/
def fileHeic : File :=
  { name := "photo.HEIC", type := "application/pdf", size := 6
    content := .bytes [5, 5, 5, 5, 5, 5] }

/-- An oversize PNG (15 MiB, over the 10 MiB limit). -/
def fileBig : File :=
  { name := "scan.png", type := "image/png", size := 15 * 1024 * 1024, content := .bytes [] }

/-- A file of a type the detector supports nowhere. -/
def fileTxt : File :=
  { name := "notes.txt", type := "text/plain", size := 3, content := .bytes [1, 2, 3] }

/-- A convertible raster input. -/
def fileWebp : File :=
  { name := "photo.webp", type := "image/webp", size := 3, content := .bytes [1, 2, 3] }

/-- A PDF input. -/
def filePdf : File :=
  { name := "invoice.pdf", type := "application/pdf", size := 9
    content := .bytes [1, 2, 3, 4, 5, 6, 7, 8, 9] }

/-- The output convertHeicToJpeg produces for fileHeic under envW. -/
def heicOut : File :=
  { name := "photo.jpg", type := "image/jpeg", size := 2, content := .bytes [9, 9] }

/-- envW with a different Math.random draw and timestamp. -/
def envDiffId : Env := { envW with idSource := "zz9aa", now := 200 }

/-- The history entry the successful envW/filePng attempt prepends. -/
def entryA : UploadedFile :=
  { id := "k7f2q", previewUrl := some "data:image/png;base64,"
    fileName := "photo.png", timestamp := 100 }

/-- The entry a second successful attempt with the same Math.random draw
(envSameId, filePng2) prepends: same id, different file and time. -/
def entryB : UploadedFile :=
  { id := "k7f2q", previewUrl := some "data:image/png;base64,"
    fileName := "receipt.png", timestamp := 200 }

/-- The entry the envDiffId/filePng2 attempt prepends. -/
def entryC : UploadedFile :=
  { id := "zz9aa", previewUrl := some "data:image/png;base64,"
    fileName := "receipt.png", timestamp := 200 }

/-- The history after two successful attempts whose Math.random draws
coincide. -/
def historyTwo : List UploadedFile :=
  (processAndUploadFile envSameId filePng2
    (processAndUploadFile envW filePng st0).state).state.uploadHistory

/-! Theorems. -/

/-- Helper: the classification block of page.tsx equals a dispatch on the
spec-worded classifier. -/
theorem processFileStep_eq (env : Env) (file : File) :
    processFileStep env file =
      match detectFromSpec file with
      | .heic => (convertHeicToJpeg env.heic file, [Stage.heicDecode])
      | .pdf => (convertPdfToJpeg env.pdf file, [Stage.pdfConvert])
      | .directImage => (.ok file, [])
      | .convertibleImage => (reencodeImage env.img file, [Stage.rasterReencode])
      | .unsupported => (.error (.mk "Unsupported file type"), []) := by
  unfold detectFromSpec processFileStep isPdfFile isImageFile
  by_cases h1 : (strEndsWith (lowerStr file.name) ".heic"
                 || strEndsWith (lowerStr file.name) ".heif") = true <;>
  by_cases h2 : (file.type == "application/pdf") = true <;>
  by_cases h3 : (strStartsWith file.type "image/") = true <;>
  by_cases h4 : (file.type == "image/jpeg" || file.type == "image/png") = true <;>
  simp [h1, h2, h3, h4]

/-- Helper: a successful HEIC conversion (page.tsx build) produces JPEG MIME
and the .heic/.heif suffix rewritten to .jpg. -/
theorem convertHeicToJpeg_ok (d : Except Err (Blob ⊕ List Blob)) (file out : File)
    (h : convertHeicToJpeg d file = .ok out) :
    out.type = "image/jpeg" ∧ out.name = replaceHeicExt file.name := by
  cases d with
  | error e => exact absurd h (by simp [convertHeicToJpeg])
  | ok cb =>
    simp only [convertHeicToJpeg, Except.ok.injEq] at h
    subst h
    exact ⟨rfl, rfl⟩

/-- Helper: a successful PDF conversion body (page.tsx build) produces JPEG
MIME and the .pdf suffix rewritten to .jpg. -/
theorem convertPdfToJpegBody_ok (env : PdfEnv) (file out : File)
    (h : convertPdfToJpegBody env file = .ok out) :
    out.type = "image/jpeg" ∧ out.name = replacePdfExt file.name := by
  unfold convertPdfToJpegBody at h
  repeat' split at h
  all_goals simp only [Except.ok.injEq, reduceCtorEq] at h
  · subst h; exact ⟨rfl, rfl⟩

/-- Helper: same statement for the wrapped convertPdfToJpeg. -/
theorem convertPdfToJpeg_ok (env : PdfEnv) (file out : File)
    (h : convertPdfToJpeg env file = .ok out) :
    out.type = "image/jpeg" ∧ out.name = replacePdfExt file.name := by
  unfold convertPdfToJpeg at h
  split at h
  · next f hf =>
    simp only [Except.ok.injEq] at h
    subst h
    exact convertPdfToJpegBody_ok env file f hf
  · exact absurd h (by simp)

/-- Helper: a successful convertible-image re-encode produces JPEG MIME and
the last extension rewritten to .jpg. -/
theorem reencodeImage_ok (d : Except Err Img) (file out : File)
    (h : reencodeImage d file = .ok out) :
    out.type = "image/jpeg" ∧ out.name = replaceLastExt file.name := by
  cases d with
  | error e => exact absurd h (by simp [reencodeImage])
  | ok img =>
    simp only [reencodeImage, Except.ok.injEq] at h
    subst h
    exact ⟨rfl, rfl⟩

/-- C1: for every input file, the format-detection branch of
processAndUploadFile follows exactly the claimed rule order, stated as: the
code block agrees, branch for branch, with the classifier detectFromSpec
written from the words of the claim — HEIC by case-insensitive filename
extension regardless of MIME, then exact application/pdf, then image/ split
into direct jpeg/png pass-through and convertible re-encode, anything else
the terminal unsupported error with no conversion stage executed. -/
theorem c1_detector_matches_code (env : Env) (file : File) :
    (detectFromSpec file = FileClass.heic →
      processFileStep env file = (convertHeicToJpeg env.heic file, [Stage.heicDecode])) ∧
    (detectFromSpec file = FileClass.pdf →
      processFileStep env file = (convertPdfToJpeg env.pdf file, [Stage.pdfConvert])) ∧
    (detectFromSpec file = FileClass.directImage →
      processFileStep env file = (.ok file, [])) ∧
    (detectFromSpec file = FileClass.convertibleImage →
      processFileStep env file = (reencodeImage env.img file, [Stage.rasterReencode])) ∧
    (detectFromSpec file = FileClass.unsupported →
      processFileStep env file = (.error (.mk "Unsupported file type"), [])) := by
  unfold detectFromSpec processFileStep isPdfFile isImageFile
  by_cases h1 : (strEndsWith (lowerStr file.name) ".heic"
                 || strEndsWith (lowerStr file.name) ".heif") = true <;>
  by_cases h2 : (file.type == "application/pdf") = true <;>
  by_cases h3 : (strStartsWith file.type "image/") = true <;>
  by_cases h4 : (file.type == "image/jpeg" || file.type == "image/png") = true <;>
  simp [h1, h2, h3, h4]

/-- C1 witness: a file named photo.HEIC whose declared MIME type is
application/pdf is still routed to the HEIC conversion. -/
theorem c1_witness :
    processFileStep envW fileHeic = (convertHeicToJpeg envW.heic fileHeic, [Stage.heicDecode]) :=
  (c1_detector_matches_code envW fileHeic).1 rfl

/-- C2: a file over the 10 MiB limit is rejected by processAndUploadFile
(page.tsx build) with the descriptive oversize message and the error
status, with no conversion stage and no network request executed and the
history untouched. -/
theorem c2_oversize_rejected (env : Env) (file : File) (st : AppState)
    (h : file.size > MAX_FILE_SIZE) :
    (processAndUploadFile env file st).state.fileStatus = FileStatus.error ∧
    (processAndUploadFile env file st).state.errorMessage = "File size exceeds 10MB limit" ∧
    (processAndUploadFile env file st).stages = [] ∧
    (processAndUploadFile env file st).trace = [FileStatus.processing, FileStatus.error] ∧
    (processAndUploadFile env file st).state.uploadHistory = st.uploadHistory := by
  unfold processAndUploadFile
  rw [if_pos h]
  exact ⟨rfl, rfl, rfl, rfl, rfl⟩

/-- C2 witness: a 15 MiB PNG is rejected before anything runs. -/
theorem c2_witness :
    (processAndUploadFile envW fileBig st0).state.fileStatus = FileStatus.error ∧
    (processAndUploadFile envW fileBig st0).state.errorMessage = "File size exceeds 10MB limit" ∧
    (processAndUploadFile envW fileBig st0).stages = [] ∧
    (processAndUploadFile envW fileBig st0).trace = [FileStatus.processing, FileStatus.error] ∧
    (processAndUploadFile envW fileBig st0).state.uploadHistory = st0.uploadHistory :=
  c2_oversize_rejected envW fileBig st0 (by decide)

/-- C3 counterexample: a direct PNG input named photo.png passes through the
normalizer as the very same file, so its name keeps the .png extension
instead of being rewritten to .jpg and its encoding stays image/png — the
claimed always-JPEG-with-.jpg-name contract fails on the direct path. -/
theorem c3_counterexample :
    (processFileStep envW filePng).1 = .ok filePng ∧
    filePng.name ≠ "photo.jpg" ∧
    filePng.type ≠ "image/jpeg" := by
  refine ⟨rfl, by decide, by decide⟩

/-- C3 amended: whenever the processing block succeeds, HEIC, PDF and
convertible inputs come out JPEG-encoded with the respective extension
(.heic/.heif, a final .pdf, the final extension) rewritten to .jpg when the
name carries one (the rewrite functions leave other names unchanged), while
a direct JPEG/PNG input is returned as the identical File — byte-identical,
name and MIME unchanged. -/
theorem c3_normalizer_output (env : Env) (file out : File)
    (h : (processFileStep env file).1 = .ok out) :
    (detectFromSpec file = FileClass.heic →
      out.type = "image/jpeg" ∧ out.name = replaceHeicExt file.name) ∧
    (detectFromSpec file = FileClass.pdf →
      out.type = "image/jpeg" ∧ out.name = replacePdfExt file.name) ∧
    (detectFromSpec file = FileClass.convertibleImage →
      out.type = "image/jpeg" ∧ out.name = replaceLastExt file.name) ∧
    (detectFromSpec file = FileClass.directImage → out = file) := by
  rw [processFileStep_eq] at h
  refine ⟨?_, ?_, ?_, ?_⟩ <;> intro hd <;> rw [hd] at h
  · exact convertHeicToJpeg_ok env.heic file out h
  · exact convertPdfToJpeg_ok env.pdf file out h
  · exact reencodeImage_ok env.img file out h
  · simpa [eq_comm] using h

/-- C3 witness: the HEIC input photo.HEIC comes out as photo.jpg with MIME
image/jpeg. -/
theorem c3_witness :
    heicOut.type = "image/jpeg" ∧ heicOut.name = replaceHeicExt fileHeic.name :=
  (c3_normalizer_output envW fileHeic heicOut rfl).1 rfl

/-- C4 counterexample: when heic2any yields the two-element list of blobs
[0] and [1], the page.tsx convertHeicToJpeg hands the whole array to the
File constructor, which string-converts it, so the output content is the
joined object string and not the first decoded blob. -/
theorem c4_counterexample :
    convertHeicToJpeg (.ok (.inr [[0], [1]])) fileHeic =
      .ok { name := "photo.jpg"
            type := "image/jpeg"
            size := 27
            content := .str "[object Blob],[object Blob]" } ∧
    FileContent.str "[object Blob],[object Blob]" ≠ FileContent.bytes [0] :=
  ⟨by decide, by decide⟩

/-- C4 amended: the part_000/part_001 build of convertHeicToJpeg reduces a
non-empty list result to its first element before building the output file,
while the page.tsx build passes the list to the File constructor whole and
ends up with its string conversion as content. -/
theorem c4_variant_selects_first (b : Blob) (bs : List Blob) (file : File) :
    convertHeicToJpegVariant (.ok (.inr (b :: bs))) file =
      .ok { name := replaceHeicExt file.name
            type := "image/jpeg"
            size := b.length
            content := .bytes b } ∧
    convertHeicToJpeg (.ok (.inr (b :: bs))) file =
      .ok { name := replaceHeicExt file.name
            type := "image/jpeg"
            size := (joinWithComma ((b :: bs).map fun _ => "[object Blob]")).length
            content := .str (joinWithComma ((b :: bs).map fun _ => "[object Blob]")) } :=
  ⟨rfl, rfl⟩

/-- C5: for every PDF document with at least one page, whatever the total
page count, convertPdfToJpeg renders exactly page 1 at scale 2 on a canvas
sized to twice the first page, first filled with a solid white rectangle
and rendered with background white (white differs from transparent and
black), and encodes the canvas as image/jpeg at quality 95/100. -/
theorem c5_pdf_first_page (env : PdfEnv) (doc : PdfDoc) (page1 : PdfPage)
    (rest : List PdfPage) (file : File)
    (hload : env.load = .ok doc) (hpages : doc.pages = page1 :: rest)
    (hrender : env.render = .ok ()) (hencode : env.encodeOk = true) :
    convertPdfToJpeg env file =
      .ok { name := replacePdfExt file.name
            type := "image/jpeg"
            size := 0
            content := FileContent.jpegOfCanvas
              { width := page1.width * 2, height := page1.height * 2
                ops := [CanvasOp.fillRect Color.white 0 0 (page1.width * 2) (page1.height * 2),
                        CanvasOp.renderPdfPage 1 2 Color.white] }
              (95 / 100) } ∧
    Color.white ≠ Color.transparent ∧ Color.white ≠ Color.black := by
  refine ⟨?_, by decide, by decide⟩
  unfold convertPdfToJpeg convertPdfToJpegBody getPage
  rw [hload]
  simp [hpages, hrender, hencode, PdfPage.getViewport, contentSize]

/-- C5 witness: a three-page document is reduced to its first page of
dimensions 100 by 200, scaled by 2, over white, at quality 95/100. -/
theorem c5_witness :
    convertPdfToJpeg pdfEnvOk filePdf =
      .ok { name := replacePdfExt filePdf.name
            type := "image/jpeg"
            size := 0
            content := FileContent.jpegOfCanvas
              { width := (100 : ℚ) * 2, height := (200 : ℚ) * 2
                ops := [CanvasOp.fillRect Color.white 0 0 ((100 : ℚ) * 2) ((200 : ℚ) * 2),
                        CanvasOp.renderPdfPage 1 2 Color.white] }
              (95 / 100) } ∧
    Color.white ≠ Color.transparent ∧ Color.white ≠ Color.black :=
  c5_pdf_first_page pdfEnvOk
    { pages := [{ width := 100, height := 200 }, { width := 3, height := 4 },
                { width := 5, height := 6 }] }
    { width := 100, height := 200 }
    [{ width := 3, height := 4 }, { width := 5, height := 6 }]
    filePdf rfl rfl rfl rfl

/-- Helper: every error convertPdfToJpeg (page.tsx build) surfaces is the
generic conversion-failure message. -/
theorem convertPdfToJpeg_error_generic (env : PdfEnv) (file : File) (e2 : Err)
    (h : convertPdfToJpeg env file = .error e2) :
    e2 = .mk "Failed to convert PDF" := by
  unfold convertPdfToJpeg at h
  split at h
  · exact absurd h (by simp)
  · simp only [Except.error.injEq] at h
    exact h.symm

/-- C6: every conversion stage failure surfaces as the fixed generic message
of its converter in the page.tsx build: a rejected heic2any call (and any
HEIC-converter error at all) yields the HEIC message, and a getDocument
failure, a render failure or a null toBlob (and any PDF-converter error at
all, including the page-fetch failure on an empty document) yields the PDF
message — never the external error verbatim. -/
theorem c6_generic_conversion_failure (d : Except Err (Blob ⊕ List Blob))
    (env : PdfEnv) (file : File) (e : Err) :
    (convertHeicToJpeg (.error e) file = .error (.mk "Failed to convert HEIC image")) ∧
    (∀ e2, convertHeicToJpeg d file = .error e2 → e2 = .mk "Failed to convert HEIC image") ∧
    (env.load = .error e → convertPdfToJpeg env file = .error (.mk "Failed to convert PDF")) ∧
    (env.render = .error e → convertPdfToJpeg env file = .error (.mk "Failed to convert PDF")) ∧
    (env.encodeOk = false → convertPdfToJpeg env file = .error (.mk "Failed to convert PDF")) ∧
    (∀ e2, convertPdfToJpeg env file = .error e2 → e2 = .mk "Failed to convert PDF") := by
  refine ⟨rfl, ?_, ?_, ?_, ?_, convertPdfToJpeg_error_generic env file⟩
  · intro e2 h
    cases d with
    | error eh =>
      simp only [convertHeicToJpeg, Except.error.injEq] at h
      exact h.symm
    | ok cb => exact absurd h (by simp [convertHeicToJpeg])
  · intro hl
    simp [convertPdfToJpeg, convertPdfToJpegBody, hl]
  · intro hr
    rcases hl : env.load with eL | doc
    · simp [convertPdfToJpeg, convertPdfToJpegBody, hl]
    · rcases hp : getPage doc 1 with eP | pr
      · simp [convertPdfToJpeg, convertPdfToJpegBody, hl, hp]
      · simp [convertPdfToJpeg, convertPdfToJpegBody, hl, hp, hr]
  · intro he
    rcases hl : env.load with eL | doc
    · simp [convertPdfToJpeg, convertPdfToJpegBody, hl]
    · rcases hp : getPage doc 1 with eP | pr
      · simp [convertPdfToJpeg, convertPdfToJpegBody, hl, hp]
      · rcases hr : env.render with eR | u
        · simp [convertPdfToJpeg, convertPdfToJpegBody, hl, hp, hr]
        · simp [convertPdfToJpeg, convertPdfToJpegBody, hl, hp, hr, he]

/-- C6 witness: a library-internal getDocument failure surfaces as the
generic PDF message, not verbatim. -/
theorem c6_witness :
    convertPdfToJpeg pdfEnvLoadFail filePdf = .error (.mk "Failed to convert PDF") :=
  (c6_generic_conversion_failure (.error (.mk "x")) pdfEnvLoadFail filePdf
    (.mk "XRefParseException: invalid xref")).2.2.1 rfl

/-- C7: an intake attempt started from idle (page.tsx build) either
succeeds — visiting processing, uploading, success, idle in that order and
prepending exactly one history entry — or fails — visiting processing, with
uploading exactly when the upload stage was reached, then error, leaving
the history untouched; and the success status is visited precisely when the
history grew by one entry. -/
theorem c7_state_machine (env : Env) (file : File) (st : AppState) (r : RunResult)
    (_hIdle : st.fileStatus = FileStatus.idle)
    (hr : processAndUploadFile env file st = r) :
    ((r.trace = [FileStatus.processing, FileStatus.uploading,
                 FileStatus.success, FileStatus.idle] ∧
      ∃ entry, r.state.uploadHistory = entry :: st.uploadHistory) ∨
     ((r.trace = [FileStatus.processing, FileStatus.error] ∨
       r.trace = [FileStatus.processing, FileStatus.uploading, FileStatus.error]) ∧
      r.state.fileStatus = FileStatus.error ∧
      r.state.uploadHistory = st.uploadHistory)) ∧
    (FileStatus.success ∈ r.trace ↔
      r.state.uploadHistory.length = st.uploadHistory.length + 1) ∧
    (FileStatus.uploading ∈ r.trace → Stage.fetchPost env.webhookUrl ∈ r.stages) := by
  subst hr
  unfold processAndUploadFile
  by_cases hsz : file.size > MAX_FILE_SIZE
  · rw [if_pos hsz]
    refine ⟨Or.inr ⟨Or.inl rfl, rfl, rfl⟩, ?_, ?_⟩
    · simp [mkError]
    · intro hu
      simp [mkError] at hu
  · rw [if_neg hsz]
    rcases hps : processFileStep env file with ⟨e | pf, stages⟩
    · dsimp only [mkError]
      refine ⟨Or.inr ⟨Or.inl rfl, rfl, rfl⟩, ?_, ?_⟩
      · simp
      · intro hu
        simp at hu
    · dsimp only [createImagePreview]
      rcases hf : env.fetchResult with fe | resp
      · dsimp only [mkError]
        refine ⟨Or.inr ⟨Or.inr rfl, rfl, rfl⟩, ?_, ?_⟩
        · simp
        · intro hu
          simp [List.mem_append]
      · by_cases hok : resp.ok
        · simp only [hok, Bool.not_true, Bool.false_eq_true, if_false]
          refine ⟨Or.inl ⟨rfl, _, rfl⟩, ?_, ?_⟩
          · simp
          · intro hu
            simp [List.mem_append]
        · have hok2 : resp.ok = false := by
            cases hcase : resp.ok
            · rfl
            · exact absurd hcase hok
          simp only [hok2, Bool.not_false, if_true]
          dsimp only [mkError]
          refine ⟨Or.inr ⟨Or.inr rfl, rfl, rfl⟩, ?_, ?_⟩
          · simp
          · intro hu
            simp [List.mem_append]

/-- C7 witness: a fully successful direct-PNG attempt from the empty idle
state visits the four statuses in order and prepends one entry. -/
theorem c7_witness :
    (((processAndUploadFile envW filePng st0).trace =
        [FileStatus.processing, FileStatus.uploading,
         FileStatus.success, FileStatus.idle] ∧
      ∃ entry, (processAndUploadFile envW filePng st0).state.uploadHistory =
        entry :: st0.uploadHistory) ∨
     (((processAndUploadFile envW filePng st0).trace =
         [FileStatus.processing, FileStatus.error] ∨
       (processAndUploadFile envW filePng st0).trace =
         [FileStatus.processing, FileStatus.uploading, FileStatus.error]) ∧
      (processAndUploadFile envW filePng st0).state.fileStatus = FileStatus.error ∧
      (processAndUploadFile envW filePng st0).state.uploadHistory = st0.uploadHistory)) ∧
    (FileStatus.success ∈ (processAndUploadFile envW filePng st0).trace ↔
      (processAndUploadFile envW filePng st0).state.uploadHistory.length =
        st0.uploadHistory.length + 1) ∧
    (FileStatus.uploading ∈ (processAndUploadFile envW filePng st0).trace →
      Stage.fetchPost envW.webhookUrl ∈ (processAndUploadFile envW filePng st0).stages) :=
  c7_state_machine envW filePng st0 (processAndUploadFile envW filePng st0) rfl rfl

/-- Helper: the classification block of the part_000 build never records a
network stage. -/
theorem processFileStepVariant_no_fetch (env : Env) (file : File) (u : Option String) :
    Stage.fetchPost u ∉ (processFileStepVariant env file).2 := by
  unfold processFileStepVariant
  repeat' split
  all_goals simp

/-- C8 counterexample: in the page.tsx build, with no webhook URL
configured, a successful direct-PNG attempt still issues the POST (against
the unconfigured URL) and finishes successfully — no configuration-missing
error and no error state arise. -/
theorem c8_counterexample :
    Stage.fetchPost none ∈ (processAndUploadFile envNoUrl filePng2 st0).stages ∧
    (processAndUploadFile envNoUrl filePng2 st0).state.fileStatus = FileStatus.idle ∧
    FileStatus.error ∉ (processAndUploadFile envNoUrl filePng2 st0).trace ∧
    (processAndUploadFile envNoUrl filePng2 st0).state.errorMessage
      ≠ "Webhook URL not configured" :=
  ⟨by decide, by decide, by decide, by decide⟩

/-- C8 amended: in the part_000 build, an attempt that reaches the upload
stage with no webhook URL configured ends in the error state with the
configuration-missing message, and no POST stage is ever executed. -/
theorem c8_variant_requires_url (env : Env) (file : File) (st : AppState) (r : RunResult)
    (hurl : env.webhookUrl = none)
    (hr : processAndUploadFileVariant env file st = r)
    (hup : FileStatus.uploading ∈ r.trace) :
    r.state.fileStatus = FileStatus.error ∧
    r.state.errorMessage = "Webhook URL not configured" ∧
    (∀ u, Stage.fetchPost u ∉ r.stages) := by
  subst hr
  unfold processAndUploadFileVariant at hup ⊢
  rcases hps : processFileStepVariant env file with ⟨e | pf, stages⟩
  · rw [hps] at hup
    dsimp only [mkError] at hup
    simp at hup
  · dsimp only [createImagePreview]
    rw [hurl]
    dsimp only [mkError]
    refine ⟨rfl, rfl, ?_⟩
    intro u
    have hnf := processFileStepVariant_no_fetch env file u
    rw [hps] at hnf
    simp [List.mem_append]
    exact fun hmem => absurd hmem hnf

/-- C8 amended witness: the part_000 build with filePng2 and no URL stops
with the configuration error and never POSTs. -/
theorem c8_variant_witness :
    (processAndUploadFileVariant envNoUrl filePng2 st0).state.fileStatus = FileStatus.error ∧
    (processAndUploadFileVariant envNoUrl filePng2 st0).state.errorMessage
      = "Webhook URL not configured" ∧
    Stage.fetchPost none ∉ (processAndUploadFileVariant envNoUrl filePng2 st0).stages :=
  ⟨(c8_variant_requires_url envNoUrl filePng2 st0 _ rfl rfl (by decide)).1,
   (c8_variant_requires_url envNoUrl filePng2 st0 _ rfl rfl (by decide)).2.1,
   (c8_variant_requires_url envNoUrl filePng2 st0 _ rfl rfl (by decide)).2.2 none⟩

/-- Helper: the only way the upload history of a page.tsx attempt grows by a
prepended entry is the success branch, whose entry carries the Math.random
draw of the attempt as id. -/
theorem run_new_entry_id (env : Env) (file : File) (st : AppState) (entry : UploadedFile)
    (h : (processAndUploadFile env file st).state.uploadHistory = entry :: st.uploadHistory) :
    entry.id = env.idSource := by
  unfold processAndUploadFile at h
  by_cases hsz : file.size > MAX_FILE_SIZE
  · rw [if_pos hsz] at h
    dsimp only [mkError] at h
    have hlen := congrArg List.length h
    simp at hlen
  · rw [if_neg hsz] at h
    rcases hps : processFileStep env file with ⟨e | pf, stages⟩
    · rw [hps] at h
      dsimp only [mkError] at h
      have hlen := congrArg List.length h
      simp at hlen
    · rw [hps] at h
      dsimp only [createImagePreview] at h
      rcases hf : env.fetchResult with fe | resp
      · rw [hf] at h
        dsimp only [mkError] at h
        have hlen := congrArg List.length h
        simp at hlen
      · rw [hf] at h
        by_cases hok : resp.ok
        · simp only [hok, Bool.not_true, Bool.false_eq_true, if_false] at h
          rw [List.cons.injEq] at h
          rw [← h.1]
        · have hok2 : resp.ok = false := by
            cases hcase : resp.ok
            · rfl
            · exact absurd hcase hok
          simp only [hok2, Bool.not_false, if_true] at h
          dsimp only [mkError] at h
          have hlen := congrArg List.length h
          simp at hlen

/-- C9 counterexample: two successful attempts whose Math.random draws
coincide produce two distinct history entries with equal ids — uniqueness
is not guaranteed by construction. -/
theorem c9_counterexample :
    historyTwo = [entryB, entryA] ∧ entryA ≠ entryB ∧ entryA.id = entryB.id :=
  ⟨by decide, by decide, rfl⟩

/-- C9 amended: each prepended entry takes the Math.random draw of its
attempt as id, so two entries created by attempts whose draws differ have
different ids; nothing in the code enforces distinct draws. -/
theorem c9_distinct_draws_distinct_ids (env1 env2 : Env) (f1 f2 : File) (st : AppState)
    (e1 e2 : UploadedFile)
    (hid : env1.idSource ≠ env2.idSource)
    (h1 : (processAndUploadFile env1 f1 st).state.uploadHistory = e1 :: st.uploadHistory)
    (h2 : (processAndUploadFile env2 f2 (processAndUploadFile env1 f1 st).state).state.uploadHistory
            = e2 :: (processAndUploadFile env1 f1 st).state.uploadHistory) :
    e1.id ≠ e2.id := by
  have g1 := run_new_entry_id env1 f1 st e1 h1
  have g2 := run_new_entry_id env2 f2 (processAndUploadFile env1 f1 st).state e2 h2
  rw [g1, g2]
  exact hid

/-- C9 amended witness: with distinct draws the two entries of two
successful attempts have distinct ids. -/
theorem c9_witness : entryA.id ≠ entryC.id :=
  c9_distinct_draws_distinct_ids envW envDiffId filePng filePng2 st0 entryA entryC
    (by decide) (by decide) (by decide)

/-- C10: createImagePreview never rejects — it resolves for every read
outcome, resolving with null (none) when the read fails, a value that is
not a valid data URI — and consequently an attempt whose processing block
succeeded always proceeds to the uploading status no matter how the
preview read went: a failed file read cannot move the attempt to the error
state. -/
theorem c10_preview_never_rejects (readOk : Bool) (file pf : File) (e : Err)
    (env : Env) (st : AppState)
    (hsz : ¬file.size > MAX_FILE_SIZE)
    (hok : (processFileStep env file).1 = .ok pf) :
    (createImagePreview readOk file ≠ .rejected e) ∧
    (createImagePreview false file = .resolved none) ∧
    (isValidDataUri none = false) ∧
    (FileStatus.uploading ∈ (processAndUploadFile env file st).trace) := by
  refine ⟨by simp [createImagePreview], rfl, rfl, ?_⟩
  unfold processAndUploadFile
  rw [if_neg hsz]
  rcases hps : processFileStep env file with ⟨res, stages⟩
  rw [hps] at hok
  dsimp only at hok
  subst hok
  dsimp only [createImagePreview]
  rcases hf : env.fetchResult with fe | resp
  · simp [mkError]
  · by_cases hok2 : resp.ok
    · simp [hok2]
    · have hok3 : resp.ok = false := by
        cases hcase : resp.ok
        · rfl
        · exact absurd hcase hok2
      simp [hok3, mkError]

/-- C10 witness: with a failing preview read, the direct-PNG attempt still
reaches the uploading status, and the resolved preview value is the
invalid null. -/
theorem c10_witness :
    (createImagePreview false filePng ≠ .rejected Err.nonError) ∧
    (createImagePreview false filePng = .resolved none) ∧
    (isValidDataUri none = false) ∧
    (FileStatus.uploading ∈ (processAndUploadFile envReadFail filePng st0).trace) :=
  c10_preview_never_rejects false filePng filePng Err.nonError envReadFail st0
    (by decide) rfl

end ReceiptUploader
